import Mathlib

/-!
Shallow embedding of the tsdb time-series storage engine (Timeseries append
pipeline, sparse index construction, timestamp search, range queries, and the
Cell / RecordSet accessors), together with theorems settling the specification
claims about it.

Modelling conventions:
  * a data record is modelled by its 64-bit millisecond timestamp (an `Int`)
    plus an opaque payload `α`; all engine decisions inspect only the
    timestamp at offset 0, exactly as the C++ does;
  * an index record (child series `_TSDB_index`) is a record whose payload is
    the record id (`Nat` for `hsize_t`);
  * the HDF5 table becomes a `List` of records; `Table::getRecords` bounds
    checks become explicit `Except` errors;
  * C++ exceptions become `Except` errors; the status code -1 of the search
    functions becomes `Option.none`;
  * `qsort` with the timestamp comparator is refined by insertion sort: the
    comparator only inspects timestamps, so any timestamp-nondecreasing
    permutation is a legal outcome of the source and insertion sort yields
    one; the probe deciding WHETHER to sort is modelled faithfully, including
    its slip of never updating the running previous timestamp;
  * 64-bit integer wraparound matters in two places the claims reach and is
    made explicit there: the signed `end + 1` refinement query of `recordSet`
    together with the unsigned `end_id = g - 1` that follows it (`wrap64`,
    `pred64`), and the unsigned byte offset `record_size * i` of
    `RecordSet::operator[]` (reduced modulo 2^64);
  * the child `_TSDB_index` series is modelled by the list of entries of its
    own data table.  A deeper index-of-index never alters that list (it only
    accelerates searches on huge indexes), and the child of a freshly created
    index keeps the default SPLIT_INDEX_GT = 262144, so none of the states
    reached in the claims ever has one.
-/

namespace Tsdb

/-- Error kinds surfaced by the engine (C++ exceptions / status codes). -/
inductive Err where
  | TimestampOverlap
  | BadRange
  | NoRecords
  | IndexOutOfRange
  | TypeConversion
  | NullDeref
deriving DecidableEq, Repr

instance instDecEqExcept {ε β : Type} [DecidableEq ε] [DecidableEq β] :
    DecidableEq (Except ε β)
  | .ok a, .ok b =>
    match decEq a b with
    | isTrue h => isTrue (by rw [h])
    | isFalse h => isFalse (by intro hh; cases hh; exact h rfl)
  | .ok _, .error _ => isFalse (by intro hh; cases hh)
  | .error _, .ok _ => isFalse (by intro hh; cases hh)
  | .error e, .error f =>
    match decEq e f with
    | isTrue h => isTrue (by rw [h])
    | isFalse h => isFalse (by intro hh; cases hh; exact h rfl)

/-- One fixed-width record: the leading `_TSDB_timestamp` field plus the
remaining fields, abstracted into a payload. -/
structure Rec (α : Type) where
  ts : Int
  val : α
deriving DecidableEq, Repr

instance instInhabitedRec {α : Type} [Inhabited α] : Inhabited (Rec α) :=
  ⟨⟨0, default⟩⟩

/-- Index entry: timestamp plus the record id it points at. -/
abbrev IdxRec := Rec Nat

/-- Timestamp order used by the record comparator `record_cmp`. -/
def tsLE {α : Type} (a b : Rec α) : Prop := a.ts ≤ b.ts

instance instDecTsLE {α : Type} : DecidableRel (tsLE (α := α)) :=
  fun a b => inferInstanceAs (Decidable (a.ts ≤ b.ts))

instance instTotalTsLE {α : Type} : IsTotal (Rec α) tsLE :=
  ⟨fun a b => le_total a.ts b.ts⟩

instance instTransTsLE {α : Type} : IsTrans (Rec α) tsLE :=
  ⟨fun _ _ _ hab hbc => le_trans hab hbc⟩

/-- In-memory state of one Timeseries: the `_TSDB_data` table, the data table
of the child `_TSDB_index` series when it exists, and the two tuning
parameters. -/
structure TS (α : Type) where
  data : List (Rec α)
  index : Option (List IdxRec)
  splitIndexGt : Nat
  indexStep : Nat
deriving DecidableEq, Repr

/-- The sortedness probe of `appendRecords` (part_002 lines 242-259).  The
source sets `prevts` to the first record timestamp and never updates it
inside the loop, so the probe fires exactly when some later record carries a
timestamp strictly below the FIRST one; inversions sitting entirely above
the first timestamp are missed and such batches stay unsorted. -/
def probeFindsInversion {α : Type} (l : List (Rec α)) : Bool :=
  match l with
  | [] => false
  | r :: rest => rest.any (fun x => decide (x.ts < r.ts))

/-- The batch preprocessing of `appendRecords`: sort with `record_cmp` only
when the probe fired. -/
def sortIfNeeded {α : Type} (l : List (Rec α)) : List (Rec α) :=
  if probeFindsInversion l then List.insertionSort tsLE l else l

/-- Length of the leading run of records with timestamp strictly below `limit`
(the records the discard loop of `appendRecords` skips). -/
def dropCount {α : Type} (limit : Int) : List (Rec α) → Nat
  | [] => 0
  | r :: rest => if r.ts < limit then dropCount limit rest + 1 else 0

/-- The data-table half of `Timeseries::appendRecords` (part_002 lines
218-304, without the trailing `indexTail` call): sort if needed, compare the
first batch timestamp with the timestamp of the last stored record, and
append / discard / fail accordingly.  Returns the discarded count and the new
table contents. -/
def appendData {α : Type} [Inhabited α] (tbl batch : List (Rec α))
    (discard : Bool) : Except Err (Nat × List (Rec α)) :=
  if batch.isEmpty then .ok (0, tbl)
  else
    let b := sortIfNeeded batch
    match tbl.getLast? with
    | none => .ok (0, tbl ++ b)
    | some lastR =>
      if lastR.ts > (b.headD default).ts then
        if discard then
          let k := dropCount lastR.ts b
          .ok (k, tbl ++ b.drop k)
        else .error .TimestampOverlap
      else .ok (0, tbl ++ b)

/-- Bounds-checked record range read, `Table::getRecords` (table.cpp lines
300-325): out-of-bounds ids fail first, then a reversed range fails. -/
def tableSlice {α : Type} (data : List (Rec α)) (first last : Nat) :
    Except Err (List (Rec α)) :=
  if first ≥ data.length ∨ last ≥ data.length then .error .IndexOutOfRange
  else if last < first then .error .BadRange
  else .ok ((data.drop first).take (last - first + 1))

/-- Smallest index of a record satisfying `p` (the forward scan of
`recordId_GE`). -/
def firstIdxP {α : Type} (p : Rec α → Bool) : List (Rec α) → Option Nat
  | [] => none
  | r :: rest => if p r then some 0 else (firstIdxP p rest).map (· + 1)

/-- Largest index of a record satisfying `p` (the backward scans of
`recordId_LE`). -/
def lastIdxP {α : Type} (p : Rec α → Bool) : List (Rec α) → Option Nat
  | [] => none
  | r :: rest =>
    match lastIdxP p rest with
    | some j => some (j + 1)
    | none => if p r then some 0 else none

/-- The backward search of `recordId_LE` over one retrieved block (part_002
lines 636-665).  `first` is the absolute record id of the first block record.
Find the rightmost record with timestamp ≤ `q`; from there scan further back
for the rightmost record with a strictly smaller timestamp and return the
absolute id just after it.  When that inner scan reaches the top of the block
the source returns absolute id 0 (not `first`). -/
def flatScanLE {α : Type} [Inhabited α] (blk : List (Rec α)) (first : Nat)
    (q : Int) : Option Nat :=
  match lastIdxP (fun r => r.ts ≤ q) blk with
  | none => none
  | some i =>
    let m := (blk.getD i default).ts
    match lastIdxP (fun r => r.ts < m) (blk.take (i + 1)) with
    | some j => some (first + j + 1)
    | none => some 0

/-- The forward search of `recordId_GE` over one retrieved block (part_002
lines 730-760): the first record with timestamp ≥ `q`, as an absolute id. -/
def flatScanGE {α : Type} (blk : List (Rec α)) (first : Nat) (q : Int) :
    Option Nat :=
  (firstIdxP (fun r => r.ts ≥ q) blk).map (first + ·)

/-- Read the block `[first, last]` and run the backward LE search on it. -/
def ridLECore {α : Type} [Inhabited α] (data : List (Rec α))
    (first last : Nat) (q : Int) : Except Err (Option Nat) :=
  (tableSlice data first last).map (fun blk => flatScanLE blk first q)

/-- Read the block `[first, last]` and run the forward GE search on it. -/
def ridGECore {α : Type} [Inhabited α] (data : List (Rec α))
    (first last : Nat) (q : Int) : Except Err (Option Nat) :=
  (tableSlice data first last).map (fun blk => flatScanGE blk first q)

/-- The data-table bracket `[tbl_first_id, tbl_last_id]` that
`recordId_LE` / `recordId_GE` derive from the child index (both functions
compute it identically), or the early answer when the child LE entry carries
exactly the searched timestamp.  The child index searches are the flat cores
over the index data table (see the module comment: the states reached here
never have an index-of-index). -/
def indexBracket {α : Type} (t : TS α) (idx : List IdxRec) (q : Int) :
    Except Err (Nat ⊕ (Nat × Nat)) := do
  let cLE ← ridLECore idx 0 (idx.length - 1) q
  match cLE with
  | some iLE =>
    let e := idx.getD iLE default
    if e.ts = q then .ok (.inl e.val)
    else do
      let cGE ← ridGECore idx 0 (idx.length - 1) q
      match cGE with
      | none => .ok (.inr (e.val, t.data.length - 1))
      | some iGE => .ok (.inr (e.val, (idx.getD iGE default).val))
  | none => do
    let cGE ← ridGECore idx 0 (idx.length - 1) q
    match cGE with
    | none => .ok (.inr (0, t.data.length - 1))
    | some iGE => .ok (.inr (0, (idx.getD iGE default).val))

/-- `Timeseries::recordId_LE` (part_002 lines 582-666). -/
def TS.recordId_LE {α : Type} [Inhabited α] (t : TS α) (q : Int) :
    Except Err (Option Nat) :=
  match t.index with
  | none => ridLECore t.data 0 (t.data.length - 1) q
  | some idx => do
    match ← indexBracket t idx q with
    | .inl rid => .ok (some rid)
    | .inr (first, last) => ridLECore t.data first last q

/-- `Timeseries::recordId_GE` (part_002 lines 678-761). -/
def TS.recordId_GE {α : Type} [Inhabited α] (t : TS α) (q : Int) :
    Except Err (Option Nat) :=
  match t.index with
  | none => ridGECore t.data 0 (t.data.length - 1) q
  | some idx => do
    match ← indexBracket t idx q with
    | .inl rid => .ok (some rid)
    | .inr (first, last) => ridGECore t.data first last q

/-- Signed 64-bit (`timestamp_t`) wraparound: `x` reduced into the interval
[-2^63, 2^63). -/
def wrap64 (x : Int) : Int := (x + 2 ^ 63) % 2 ^ 64 - 2 ^ 63

/-- Unsigned 64-bit (`hsize_t`) decrement: `g - 1` wrapping at 0. -/
def pred64 (g : Nat) : Nat := if g = 0 then 2 ^ 64 - 1 else g - 1

/-- `Timeseries::recordSet(timestamp_t, timestamp_t)` (part_002 lines
881-915): BadRange on a reversed range, NoRecords when either search comes
back empty, then the end id is refined with a GE search at `e + 1` — the
addition is performed on the signed 64-bit `timestamp_t`, so at
e = 2^63 - 1 the query runs at -2^63 — and the refined id `g - 1` is
computed on the unsigned `hsize_t`, wrapping to 2^64 - 1 when g = 0; an
empty RecordSet when the refined end id falls before the start id, otherwise
the inclusive record range read through `Table::recordSet`. -/
def TS.recordSet {α : Type} [Inhabited α] (t : TS α) (s e : Int) :
    Except Err (List (Rec α)) :=
  if s > e then .error .BadRange
  else do
    match ← t.recordId_GE s with
    | none => .error .NoRecords
    | some startId =>
      match ← t.recordId_LE e with
      | none => .error .NoRecords
      | some _ => do
        let endId ← do
          match ← t.recordId_GE (wrap64 (e + 1)) with
          | none => pure (t.data.length - 1)
          | some g => pure (pred64 g)
        if endId < startId then .ok []
        else tableSlice t.data startId endId

/-- `Timeseries::getNRecordsByTimestamp` (part_002 lines 932-967): the same
walk as `recordSet` but returning 0 instead of BadRange / NoRecords. -/
def TS.getNRecordsByTimestamp {α : Type} [Inhabited α] (t : TS α)
    (s e : Int) : Except Err Nat :=
  if s > e then .ok 0
  else do
    match ← t.recordId_GE s with
    | none => .ok 0
    | some startId =>
      match ← t.recordId_LE e with
      | none => .ok 0
      | some _ => do
        let endId ← do
          match ← t.recordId_GE (e + 1) with
          | none => pure (t.data.length - 1)
          | some g => pure (g - 1)
        if endId < startId then .ok 0
        else .ok (endId - startId + 1)

/-- `Timeseries::bufferedRecordSet(timestamp_t, timestamp_t)` (part_002 lines
1028-1062).  A BufferedRecordSet is represented by its inclusive record id
window; the empty BufferedRecordSet (my_is_buffer_empty) is `none`. -/
def TS.bufferedRecordSet {α : Type} [Inhabited α] (t : TS α) (s e : Int) :
    Except Err (Option (Nat × Nat)) :=
  if s > e then .ok none
  else do
    match ← t.recordId_GE s with
    | none => .ok none
    | some startId =>
      match ← t.recordId_LE e with
      | none => .ok none
      | some _ => do
        let endId ← do
          match ← t.recordId_GE (e + 1) with
          | none => pure (t.data.length - 1)
          | some g => pure (g - 1)
        if endId < startId then .ok none
        else .ok (some (startId, endId))

/-- The index-point walk of `createIndexIfNecessary` (part_002 lines
383-409): candidate id `i` advances by one while the previous record has the
same timestamp; when record `i` starts a new timestamp an entry `(ts i, i)`
is recorded and the candidate advances by `indexStep`.  Fuel-driven so the
definition evaluates by reduction; `data.length + 1` fuel is always enough
because every step advances `i` by at least one. -/
def indexScan {α : Type} [Inhabited α] (data : List (Rec α)) (step : Nat) :
    Nat → Nat → List IdxRec
  | 0, _ => []
  | fuel + 1, i =>
    if i < data.length then
      if (data.getD (i - 1) default).ts ≠ (data.getD i default).ts then
        ⟨(data.getD i default).ts, i⟩ :: indexScan data step fuel (i + step)
      else indexScan data step fuel (i + 1)
    else []

/-- The sequential search of `indexTail` for the first record of a block
whose timestamp differs from `pv` (part_002 lines 516-521): smallest `j`
below the block size with `ts (base + j) ≠ pv`. -/
def findNeIdx {α : Type} [Inhabited α] (data : List (Rec α)) (pv : Int)
    (base : Nat) : Nat → Option Nat
  | 0 => none
  | m + 1 =>
    if (data.getD base default).ts ≠ pv then some 0
    else
      match findNeIdx data pv (base + 1) m with
      | none => none
      | some j => some (j + 1)

/-- The block walk of `indexTail` (part_002 lines 476-548).  `n` is the data
table size.  At each block start: when the block opens a new timestamp group
record an entry and advance by `indexStep`; otherwise read up to
`indexStep - 1` records (truncated at the table end), search them for the
next distinct timestamp, and record an entry there when it is larger. -/
def tailScan {α : Type} [Inhabited α] (data : List (Rec α)) (step n : Nat) :
    Nat → Nat → List IdxRec
  | 0, _ => []
  | fuel + 1, blkStart =>
    if blkStart < n then
      if (data.getD (blkStart - 1) default).ts <
          (data.getD blkStart default).ts then
        ⟨(data.getD blkStart default).ts, blkStart⟩ ::
          tailScan data step n fuel (blkStart + step)
      else
        match findNeIdx data ((data.getD (blkStart - 1) default).ts) blkStart
            (if n - blkStart < step - 1 then n - blkStart else step - 1) with
        | none => tailScan data step n fuel (blkStart + step)
        | some j =>
          if (data.getD (blkStart - 1) default).ts <
              (data.getD (blkStart + j) default).ts then
            ⟨(data.getD (blkStart + j) default).ts, blkStart + j⟩ ::
              tailScan data step n fuel (blkStart + j + step)
          else tailScan data step n fuel (blkStart + step)
    else []

/-- One `appendRecords(1, entry, true)` call on the child index
(`createIndexIfNecessary` inserts its points one at a time).  With
discard_overlap set, `appendData` never fails, so the error arm is dead. -/
def appendSingleDiscard (tbl : List IdxRec) (r : IdxRec) : List IdxRec :=
  match appendData tbl [r] true with
  | .ok (_, out) => out
  | .error _ => tbl

/-- `Timeseries::createIndexIfNecessary` (part_002 lines 329-413): no-op when
the index exists (returns false) or the table is small enough (returns true);
otherwise create the child series and insert the points selected by the
candidate walk, one `appendRecords` call each. -/
def createIndexIfNecessary {α : Type} [Inhabited α] (t : TS α) :
    Bool × TS α :=
  match t.index with
  | some _ => (false, t)
  | none =>
    if t.data.length ≤ t.splitIndexGt then (true, t)
    else
      let entries :=
        indexScan t.data t.indexStep (t.data.length + 1) (t.indexStep - 1)
      (true, { t with index := some (entries.foldl appendSingleDiscard []) })

/-- `Timeseries::indexTail` (part_002 lines 433-569).  When
`createIndexIfNecessary` reports true (index just built, or table still
small) nothing more happens.  Otherwise the last index entry is read — the
source dereferences the NULL result without a check, so an existing but empty
index is a crash — and the tail blocks after it are scanned; collected points
are appended to the child with one batched `appendRecords` call. -/
def indexTail {α : Type} [Inhabited α] (t : TS α) : Except Err (TS α) :=
  match t.index with
  | none => .ok (createIndexIfNecessary t).2
  | some idx =>
    match idx.getLast? with
    | none => .error .NullDeref
    | some lastE =>
      let n := t.data.length
      let entries := tailScan t.data t.indexStep n (n + 1) (lastE.val + t.indexStep)
      if entries.isEmpty then .ok t
      else
        match appendData idx entries true with
        | .ok (_, idx2) => .ok { t with index := some idx2 }
        | .error err => .error err

/-- `Timeseries::appendRecords` (part_002 lines 218-304): the data-table
append followed by `indexTail` exactly when records were actually written
(the source calls `indexTail` on the two paths that append and skips it on
the empty-batch and all-discarded paths, i.e. exactly when the table grew). -/
def TS.appendRecords {α : Type} [Inhabited α] (t : TS α)
    (batch : List (Rec α)) (discard : Bool) : Except Err (Nat × TS α) := do
  let (k, out) ← appendData t.data batch discard
  if out.length = t.data.length then .ok (k, { t with data := out })
  else do
    let t2 ← indexTail { t with data := out }
    .ok (k, t2)

/-- Index alignment (spec section 3, invariant 2): the entry points at an
existing record, carries its timestamp, and sits at the first record of its
timestamp group. -/
def Aligned {α : Type} [Inhabited α] (data : List (Rec α)) (e : IdxRec) :
    Prop :=
  e.val < data.length ∧ (data.getD e.val default).ts = e.ts ∧
    (e.val = 0 ∨ (data.getD (e.val - 1) default).ts < e.ts)

instance {α : Type} [Inhabited α] (data : List (Rec α)) (e : IdxRec) :
    Decidable (Aligned data e) := by
  unfold Aligned; infer_instance

/-- Invariant of the optional child index: when it exists its entries are
nondecreasing by timestamp and aligned with the data table. -/
def IdxInv {α : Type} [Inhabited α] (data : List (Rec α)) :
    Option (List IdxRec) → Prop
  | none => True
  | some idx => idx.Pairwise tsLE ∧ ∀ e ∈ idx, Aligned data e

/-- The Timeseries invariants of spec section 3: nondecreasing data
timestamps and, when the child index exists, nondecreasing and aligned index
entries. -/
def Inv {α : Type} [Inhabited α] (t : TS α) : Prop :=
  t.data.Pairwise tsLE ∧ IdxInv t.data t.index

/-- Modelled from the spec: the answer `recordId_LE` is documented to give
(spec section 4.8) — the highest record id with timestamp ≤ `q`, broken to
the lowest record id among the records sharing that timestamp. -/
def specRecordId_LE {α : Type} [Inhabited α] (data : List (Rec α))
    (q : Int) : Option Nat :=
  match lastIdxP (fun r => r.ts ≤ q) data with
  | none => none
  | some i =>
    match firstIdxP (fun r => r.ts = (data.getD i default).ts) data with
    | some j => some j
    | none => some i

/-- `tsdb::Field::FieldType` (field.h lines 44-54). -/
inductive FieldType where
  | INT32
  | INT8
  | DOUBLE
  | CHAR
  | RECORD
  | TIMESTAMP
  | DATE
  | STRING
  | UNDEFINED
deriving DecidableEq, Repr

/-- The value held by the bytes of a Cell after an assignment.  A Double cell
stores an IEEE-754 64-bit float; every int32 is represented exactly in that
format, so for the assignments modelled here the stored float is faithfully
identified by its integer value. -/
inductive CellValue where
  | int32V (v : Int)
  | int8V (v : Int)
  | dateV (v : Int)
  | doubleV (v : Int)
  | timestampV (v : Int)
deriving DecidableEq, Repr

/-- Wrap an integer into the int8 range (the `(tsdb::int8_t) rhs` cast). -/
def wrap8 (x : Int) : Int := (x + 128) % 256 - 128

/-- `Cell::operator=(const tsdb::int32_t&)` (bufferedrecordset.h part, lines
432-463 of the cell implementation).  Two source quirks are modelled exactly:
the INT8 arm guards with `rhs > 127 || rhs < 127`, which is satisfied by
every value except 127; the TIMESTAMP arm computes `rhs * 86400 * 1000` but
has no `break`, so control falls through into the DOUBLE arm which overwrites
the same eight bytes with `(double) rhs`. -/
def cellAssignInt32 (k : FieldType) (rhs : Int) : Except Err CellValue :=
  match k with
  | .INT32 => .ok (.int32V rhs)
  | .INT8 =>
    if rhs > 127 ∨ rhs < 127 then .error .TypeConversion
    else .ok (.int8V (wrap8 rhs))
  | .DATE => .ok (.dateV rhs)
  | .TIMESTAMP =>
    let _tempTs := rhs * 86400 * 1000
    .ok (.doubleV rhs)
  | .DOUBLE => .ok (.doubleV rhs)
  | _ => .error .TypeConversion

/-- Modelled from the spec: the intended Int32 → Int8 assignment (spec
section 4.3): fail TypeConversion exactly when the absolute value exceeds
127, store the value otherwise. -/
def specAssignInt32Int8 (rhs : Int) : Except Err CellValue :=
  if rhs > 127 ∨ rhs < -127 then .error .TypeConversion
  else .ok (.int8V rhs)

/-- Modelled from the spec: the intended Int32 → Timestamp assignment (spec
sections 4.3 and 9): interpret the value as days since the epoch and store
`days × 86_400_000` milliseconds. -/
def specAssignInt32Timestamp (rhs : Int) : Except Err CellValue :=
  .ok (.timestampV (rhs * 86400000))

/-- Hexadecimal digit characters as produced by `std::hex` (lowercase). -/
def hexDigitChar : Nat → Char
  | 0 => '0' | 1 => '1' | 2 => '2' | 3 => '3'
  | 4 => '4' | 5 => '5' | 6 => '6' | 7 => '7'
  | 8 => '8' | 9 => '9' | 10 => 'a' | 11 => 'b'
  | 12 => 'c' | 13 => 'd' | 14 => 'e' | 15 => 'f'
  | _ => '*'

/-- Digit list of `v` in base 16, most significant first, by repeated
division — the digits `operator<<` emits for an unsigned integer under
`std::hex`.  Fuel-driven for definitional reduction; `v + 1` fuel always
suffices. -/
def hexDigitsGo : Nat → Nat → List Char
  | 0, _ => []
  | fuel + 1, v =>
    if v < 16 then [hexDigitChar v]
    else hexDigitsGo fuel (v / 16) ++ [hexDigitChar (v % 16)]

/-- Hex digit string of a record id. -/
def hexDigits (v : Nat) : List Char := hexDigitsGo (v + 1) v

/-- The RECORD arm of `Cell::toString` (cell implementation lines 154-158):
`ss << "0x" << std::hex << tmp_recordid`. -/
def recordCellToString (v : Nat) : String :=
  "0x" ++ String.mk (hexDigits v)

/-- Modelled from the spec: record id formatting as the spec prescribes it
(spec sections 4.3 and 6.4) — decimal, no leading zeros. -/
def specRecordCellToString (v : Nat) : String := Nat.repr v

/-- Value of a hex digit character (inverse of `hexDigitChar`). -/
def hexVal : Char → Nat
  | '0' => 0 | '1' => 1 | '2' => 2 | '3' => 3
  | '4' => 4 | '5' => 5 | '6' => 6 | '7' => 7
  | '8' => 8 | '9' => 9 | 'a' => 10 | 'b' => 11
  | 'c' => 12 | 'd' => 13 | 'e' => 14 | 'f' => 15
  | _ => 16

/-- Interpret a most-significant-first hex digit list. -/
def parseHexNum (ds : List Char) : Nat :=
  ds.foldl (fun acc c => acc * 16 + hexVal c) 0

/-- A RecordSet view: a base byte offset into the backing MemoryBlock, a
record count and the record byte size (recordset implementation,
part_003). -/
structure RecordSetM where
  nrecords : Nat
  recSize : Nat
  baseOff : Nat
deriving DecidableEq, Repr

/-- A Record view as handed out by `RecordSet::operator[]`: the byte offset
of its first byte inside the backing MemoryBlock. -/
structure RecordViewM where
  off : Nat
deriving DecidableEq, Repr

/-- `RecordSet::operator[]` (part_003 lines 26-31): compose the MemoryBlock
pointer of the set with offset `record_size * i` and wrap it in a Record.
Both the multiply and the pointer offset addition are `size_t` arithmetic,
reduced modulo 2^64.  The source performs no bounds check, so the result
type is an `Except` that never carries an error. -/
def rsIndex (rs : RecordSetM) (i : Nat) : Except Err RecordViewM :=
  .ok ⟨(rs.baseOff + rs.recSize * i % 2 ^ 64) % 2 ^ 64⟩

/-- Fresh series with the S4 scenario parameters SPLIT_INDEX_GT = 7 and
INDEX_STEP = 3. -/
def tsEmpty73 : TS Unit := ⟨[], none, 7, 3⟩

/-- Fresh series with the default parameters. -/
def tsEmptyDefault : TS Unit := ⟨[], none, 262144, 65536⟩

/-- Sixteen records with distinct ascending timestamps 1..16. -/
def batchAsc16 : List (Rec Unit) :=
  (List.range 16).map (fun i => ⟨(i : Int) + 1, ()⟩)

/-- Sixteen records with distinct ascending timestamps 2, 4, ..., 32. -/
def batchEven16 : List (Rec Unit) :=
  (List.range 16).map (fun i => ⟨2 * ((i : Int) + 1), ()⟩)

/-- The series obtained by appending `batchEven16` to `tsEmpty73`: data
timestamps 2, 4, ..., 32 and index entries at record ids 2, 5, 8, 11, 14. -/
def tsEven16 : TS Unit :=
  ⟨batchEven16, some [⟨6, 2⟩, ⟨12, 5⟩, ⟨18, 8⟩, ⟨24, 11⟩, ⟨30, 14⟩], 7, 3⟩

/-- Single-record series used by witnesses. -/
def tsOne : TS Unit := ⟨[⟨10, ()⟩], none, 7, 3⟩

/-- Two-record batch overlapping `tsOne` in its first record. -/
def batchOverlap : List (Rec Unit) := [⟨5, ()⟩, ⟨12, ()⟩]

/-- RecordSet view used by the out-of-range indexing counterexample: one
record of eight bytes at base offset 0. -/
def rsTest : RecordSetM := ⟨1, 8, 0⟩

/-- Three-record series with timestamps 10, 20, 30, used by witnesses. -/
def tsThree : TS Unit := ⟨[⟨10, ()⟩, ⟨20, ()⟩, ⟨30, ()⟩], none, 7, 3⟩

/-- Single-record series with timestamp 7, target of a probe-evading
batch. -/
def tsSeven : TS Unit := ⟨[⟨7, ()⟩], none, 7, 3⟩

/-- Probe-evading unsorted batch: the inversion 8 > 6 sits entirely above
the first timestamp 5, so the sortedness probe of `appendRecords` misses
it. -/
def batchProbe3 : List (Rec Unit) := [⟨5, ()⟩, ⟨8, ()⟩, ⟨6, ()⟩]

/-- Probe-evading unsorted batch of nine records: no timestamp is below the
first one (1), so no sort happens, yet the batch is far from sorted. -/
def batchEvade9 : List (Rec Unit) :=
  [⟨1, ()⟩, ⟨9, ()⟩, ⟨2, ()⟩, ⟨2, ()⟩, ⟨2, ()⟩, ⟨2, ()⟩, ⟨2, ()⟩, ⟨2, ()⟩,
    ⟨8, ()⟩]

/-- The series obtained by appending `batchEvade9` to `tsEmpty73`: the data
table is stored unsorted and the created index entry (2, 2) is
misaligned. -/
def tsEvade9 : TS Unit := ⟨batchEvade9, some [⟨2, 2⟩, ⟨8, 8⟩], 7, 3⟩

/-! Helper lemmas on the hexadecimal formatter. -/

theorem parseHexNum_append (ds : List Char) (c : Char) :
    parseHexNum (ds ++ [c]) = parseHexNum ds * 16 + hexVal c := by
  unfold parseHexNum
  rw [List.foldl_append]
  rfl

theorem hexVal_hexDigitChar {m : Nat} (h : m < 16) :
    hexVal (hexDigitChar m) = m := by
  interval_cases m <;> rfl

theorem hexDigitsGo_parse :
    ∀ fuel v, v < fuel → parseHexNum (hexDigitsGo fuel v) = v := by
  intro fuel
  induction fuel with
  | zero => intro v hv; omega
  | succ f ih =>
    intro v hv
    by_cases h16 : v < 16
    · simp only [hexDigitsGo, if_pos h16]
      show parseHexNum ([] ++ [hexDigitChar v]) = v
      rw [parseHexNum_append, hexVal_hexDigitChar h16]
      have hz : parseHexNum [] = 0 := rfl
      omega
    · simp only [hexDigitsGo, if_neg h16]
      rw [parseHexNum_append, ih (v / 16) (by
        have := Nat.div_lt_self (show 0 < v by omega) (show 1 < 16 by omega)
        omega)]
      rw [hexVal_hexDigitChar (Nat.mod_lt v (by omega))]
      omega

theorem headD_append_of_ne_nil {β : Type} {l l' : List β} (d : β)
    (h : l ≠ []) : (l ++ l').headD d = l.headD d := by
  cases l with
  | nil => exact absurd rfl h
  | cons a tl => rfl

theorem hexDigitsGo_ne_nil (fuel v : Nat) (h : 0 < fuel) :
    hexDigitsGo fuel v ≠ [] := by
  cases fuel with
  | zero => omega
  | succ f =>
    by_cases h16 : v < 16
    · simp [hexDigitsGo, if_pos h16]
    · simp [hexDigitsGo, if_neg h16]

theorem hexDigitsGo_headD :
    ∀ fuel v, v < fuel → v ≠ 0 → (hexDigitsGo fuel v).headD '0' ≠ '0' := by
  intro fuel
  induction fuel with
  | zero => intro v hv; omega
  | succ f ih =>
    intro v hv hv0
    by_cases h16 : v < 16
    · simp only [hexDigitsGo, if_pos h16, List.headD]
      interval_cases v <;> simp_all <;> decide
    · simp only [hexDigitsGo, if_neg h16]
      have hf : 0 < f := by
        have := Nat.div_lt_self (show 0 < v by omega) (show 1 < 16 by omega)
        omega
      rw [headD_append_of_ne_nil _ (hexDigitsGo_ne_nil f (v / 16) hf)]
      exact ih (v / 16)
        (by
          have := Nat.div_lt_self (show 0 < v by omega) (show 1 < 16 by omega)
          omega)
        (by
          have := Nat.div_pos (show 16 ≤ v by omega) (show 0 < 16 by omega)
          omega)

/-- C4: with split_index_gt = 7 and index_step = 3, appending one batch of 16
records with distinct ascending timestamps 1..16 to an empty series creates
the child index with exactly the entries (3,2), (6,5), (9,8), (12,11),
(15,14), in that order. -/
theorem c4_sparse_index_trigger :
    TS.appendRecords tsEmpty73 batchAsc16 true =
      .ok (0, ⟨batchAsc16,
        some [⟨3, 2⟩, ⟨6, 5⟩, ⟨9, 8⟩, ⟨12, 11⟩, ⟨15, 14⟩], 7, 3⟩) := by
  decide

/-- C2: the claim fails on the code once a child index exists.  The series
with timestamps 2, 4, ..., 32 (reachable by one append with split_index_gt =
7, index_step = 3) answers recordId_LE(7) with record id 0, although the
highest record with timestamp ≤ 7 is record 2 (timestamp 6, the sole record
of its group): the backward scan reaches the top of the block bracketed by
the index entry (6, rid 2) and line 656 of part_002 then stores absolute id 0
instead of the block start.  Without the index the same series answers 2. -/
theorem c2_recordId_LE_top_of_block_bug :
    TS.appendRecords tsEmpty73 batchEven16 true = .ok (0, tsEven16) ∧
    tsEven16.recordId_LE 7 = .ok (some 0) ∧
    specRecordId_LE tsEven16.data 7 = some 2 ∧
    (⟨tsEven16.data, none, 7, 3⟩ : TS Unit).recordId_LE 7 = .ok (some 2) := by
  decide

/-- C1: the claim fails on the code.  The claim has the batch sorted first,
so that with discard_overlap exactly the K records of the sorted batch with
timestamps strictly below the last stored timestamp are discarded.  But the
sortedness probe of the source (part_002 lines 247-258) never updates
`prevts`: it compares every later timestamp only against the first record
timestamp, so the unsorted batch (5, 8, 6) onto a series ending at
timestamp 7 is left unsorted, only the record with timestamp 5 is discarded
(the call returns 1, not the K = 2 of the sorted batch (5, 6, 8)), and the
record with timestamp 6 < 7 is appended — contradicting the documented
discard semantics and leaving the data table unsorted. -/
theorem c1_append_overlap_probe_bug :
    TS.appendRecords tsSeven batchProbe3 true =
      .ok (1, ⟨[⟨7, ()⟩, ⟨8, ()⟩, ⟨6, ()⟩], none, 7, 3⟩) ∧
    dropCount 7 (List.insertionSort tsLE batchProbe3) = 2 ∧
    (1 : Nat) ≠ 2 ∧
    probeFindsInversion batchProbe3 = false := by
  decide

/-- C3: the claim fails on the code, through the same sortedness probe slip.
Appending the probe-evading batch (1, 9, 2, 2, 2, 2, 2, 2, 8) to an empty
series with split_index_gt = 7 and index_step = 3 stores the data table
unsorted, and createIndexIfNecessary then emits the index entry (2, 2)
although record 1 carries timestamp 9 > 2: the entry does not sit at the
first record of its timestamp group with a strictly smaller predecessor, so
the claimed alignment invariant does not hold after this public
appendRecords call. -/
theorem c3_alignment_broken_by_probe_bug :
    TS.appendRecords tsEmpty73 batchEvade9 true = .ok (0, tsEvade9) ∧
    tsEvade9.index = some [⟨2, 2⟩, ⟨8, 8⟩] ∧
    ¬Aligned tsEvade9.data ⟨2, 2⟩ ∧
    probeFindsInversion batchEvade9 = false := by
  decide

/-- C6: the claim states the intended bounded conversion; the code guards the
INT8 arm with `rhs > 127 || rhs < 127`, so the in-range value 0 is rejected
with TypeConversion while the spec table accepts every |x| ≤ 127; only 127
itself is accepted by the code. -/
theorem c6_int32_to_int8_bounds_bug :
    cellAssignInt32 .INT8 0 = .error .TypeConversion ∧
    specAssignInt32Int8 0 = .ok (.int8V 0) ∧
    cellAssignInt32 .INT8 127 = .ok (.int8V 127) ∧
    cellAssignInt32 .INT8 128 = .error .TypeConversion := by
  decide

/-- C7: the claim states the intended days-to-milliseconds conversion; the
TIMESTAMP arm of the int32 assignment has no break, falls through into the
DOUBLE arm, and the cell ends up holding the float value of d (here d = 1)
rather than the 64-bit timestamp 86400000. -/
theorem c7_int32_to_timestamp_fallthrough_bug :
    cellAssignInt32 .TIMESTAMP 1 = .ok (.doubleV 1) ∧
    specAssignInt32Timestamp 1 = .ok (.timestampV 86400000) ∧
    CellValue.doubleV 1 ≠ CellValue.timestampV 86400000 := by
  decide

/-- C8 counterexample: for the record id 255 the code renders "0xff" (the
stream is put into std::hex with a literal 0x prefix), not the decimal "255"
the claim demands. -/
theorem c8_record_toString_counterexample :
    recordCellToString 255 = "0xff" ∧
    specRecordCellToString 255 = "255" ∧
    recordCellToString 255 ≠ specRecordCellToString 255 := by
  decide

/-- C8 amended: Cell::toString on a RecordId cell holding v returns "0x"
followed by the lowercase hexadecimal digits of v with no leading zeros (not
the decimal representation): the digit list is nonempty, interprets back to
v in base 16, and starts with a nonzero digit whenever v is nonzero. -/
theorem c8_record_toString_hex (v : Nat) :
    recordCellToString v = "0x" ++ String.mk (hexDigits v) ∧
    parseHexNum (hexDigits v) = v ∧
    hexDigits v ≠ [] ∧
    (v ≠ 0 → (hexDigits v).headD '0' ≠ '0') := by
  refine ⟨rfl, hexDigitsGo_parse (v + 1) v (by omega),
    hexDigitsGo_ne_nil (v + 1) v (by omega), fun hv => ?_⟩
  exact hexDigitsGo_headD (v + 1) v (by omega) hv

/-- C8 witness: the amended statement evaluated at v = 255. -/
theorem c8_record_toString_hex_witness :
    recordCellToString 255 = "0x" ++ String.mk (hexDigits 255) ∧
    parseHexNum (hexDigits 255) = 255 ∧
    hexDigits 255 ≠ [] ∧
    (255 ≠ 0 → (hexDigits 255).headD '0' ≠ '0') :=
  c8_record_toString_hex 255

/-- C9 counterexample: indexing the one-record RecordSet at index 1 does not
fail with IndexOutOfRange as claimed; the source has no bounds check and
hands back a Record view at byte offset 8, at the end of the one-record
set.  And since the byte offset is computed in size_t arithmetic, a huge
index can even wrap back INTO the set: with eight-byte records the index
2^61 lands at byte offset 8 * 2^61 mod 2^64 = 0, the start of the set. -/
theorem c9_recordset_index_counterexample :
    rsIndex rsTest 1 = .ok ⟨8⟩ ∧
    rsIndex rsTest 1 ≠ .error .IndexOutOfRange ∧
    rsTest.nrecords ≤ 1 ∧
    rsTest.nrecords * rsTest.recSize ≤ 8 ∧
    rsIndex rsTest 2305843009213693952 = .ok ⟨0⟩ := by
  decide

/-- C9 amended: RecordSet indexing never fails; it returns, unchecked, the
Record view at byte offset base + record_size * i computed in size_t
arithmetic, i.e. reduced modulo 2^64.  Whenever i ≥ n and that offset does
not wrap, the view starts at or past the end of the set (when the multiply
wraps, the view can fall back inside the set, as the counterexample
records). -/
theorem c9_recordset_index_unchecked (rs : RecordSetM) (i : Nat)
    (h : rs.nrecords ≤ i) :
    rsIndex rs i = .ok ⟨(rs.baseOff + rs.recSize * i % 2 ^ 64) % 2 ^ 64⟩ ∧
    (rs.baseOff + rs.recSize * i < 2 ^ 64 →
      rsIndex rs i = .ok ⟨rs.baseOff + rs.recSize * i⟩ ∧
      rs.baseOff + rs.nrecords * rs.recSize ≤
        rs.baseOff + rs.recSize * i) := by
  refine ⟨rfl, fun h2 => ⟨?_, Nat.add_le_add_left ?_ rs.baseOff⟩⟩
  · unfold rsIndex
    rw [Nat.mod_eq_of_lt (show rs.recSize * i < 2 ^ 64 by omega),
      Nat.mod_eq_of_lt h2]
  · calc rs.nrecords * rs.recSize = rs.recSize * rs.nrecords :=
        Nat.mul_comm _ _
      _ ≤ rs.recSize * i := Nat.mul_le_mul_left _ h

/-- C9 witness: the amended statement evaluated at the one-record set and
index 1 (where the offset does not wrap). -/
theorem c9_recordset_index_unchecked_witness :
    rsTest.nrecords ≤ 1 ∧
    (rsIndex rsTest 1 =
        .ok ⟨(rsTest.baseOff + rsTest.recSize * 1 % 2 ^ 64) % 2 ^ 64⟩ ∧
      (rsTest.baseOff + rsTest.recSize * 1 < 2 ^ 64 →
        rsIndex rsTest 1 = .ok ⟨rsTest.baseOff + rsTest.recSize * 1⟩ ∧
        rsTest.baseOff + rsTest.nrecords * rsTest.recSize ≤
          rsTest.baseOff + rsTest.recSize * 1)) :=
  ⟨by decide, c9_recordset_index_unchecked rsTest 1 (by decide)⟩

/-- C10 counterexample: on an empty series (a series, with 0 ≤ 0 a range
lying outside all stored data) both the count query and the
BufferedRecordSet query fail with the out-of-bounds read of Table::getRecords
instead of returning 0 / an empty BufferedRecordSet. -/
theorem c10_empty_series_counterexample :
    tsEmptyDefault.data = [] ∧ (0 : Int) ≤ 0 ∧
    TS.getNRecordsByTimestamp tsEmptyDefault 0 0 = .error .IndexOutOfRange ∧
    TS.bufferedRecordSet tsEmptyDefault 0 0 = .error .IndexOutOfRange := by
  decide

/-! Helper lemma on sorted lists. -/

theorem pairwise_getD_mono {α : Type} [Inhabited α] {l : List (Rec α)}
    (h : l.Pairwise tsLE) {i j : Nat} (hij : i ≤ j) (hj : j < l.length) :
    (l.getD i default).ts ≤ (l.getD j default).ts := by
  rcases Nat.eq_or_lt_of_le hij with heq | hlt
  · rw [heq]
  · have hi : i < l.length := lt_trans hlt hj
    rw [List.getD_eq_getElem _ _ hi, List.getD_eq_getElem _ _ hj]
    exact List.pairwise_iff_getElem.mp h i j hi hj hlt

/-! Helper lemmas on the search path: block reads, scans, brackets. -/

theorem tableSlice_ok {α : Type} [Inhabited α] {data : List (Rec α)}
    {first last : Nat} (h1 : first ≤ last) (h2 : last < data.length) :
    tableSlice data first last =
      .ok ((data.drop first).take (last - first + 1)) := by
  unfold tableSlice
  rw [if_neg (by omega), if_neg (by omega)]

theorem slice_length {α : Type} [Inhabited α] {data : List (Rec α)}
    {first last : Nat} (h1 : first ≤ last) (h2 : last < data.length) :
    ((data.drop first).take (last - first + 1)).length = last - first + 1 := by
  rw [List.length_take, List.length_drop]
  omega

theorem slice_getD {α : Type} [Inhabited α] {data : List (Rec α)}
    {first last : Nat} (h1 : first ≤ last) (h2 : last < data.length)
    {i : Nat} (hi : i ≤ last - first) :
    ((data.drop first).take (last - first + 1)).getD i default =
      data.getD (first + i) default := by
  have hlen : i < ((data.drop first).take (last - first + 1)).length := by
    rw [slice_length h1 h2]; omega
  rw [List.getD_eq_getElem _ _ hlen,
    List.getD_eq_getElem _ _ (show first + i < data.length by omega)]
  rw [List.getElem_take, List.getElem_drop]

theorem firstIdxP_some {α : Type} [Inhabited α] {p : Rec α → Bool} :
    ∀ {blk : List (Rec α)} {i : Nat}, firstIdxP p blk = some i →
      i < blk.length ∧ p (blk.getD i default) ∧
        ∀ i2 < i, ¬p (blk.getD i2 default) := by
  intro blk
  induction blk with
  | nil => intro i h; cases h
  | cons r rest ih =>
    intro i h
    unfold firstIdxP at h
    by_cases hp : p r
    · rw [if_pos hp] at h
      cases h
      exact ⟨by simp, by simpa using hp, by omega⟩
    · rw [if_neg hp] at h
      cases hrec : firstIdxP p rest with
      | none => rw [hrec] at h; cases h
      | some i2 =>
        rw [hrec] at h
        simp at h
        obtain ⟨hi1, hi2, hi3⟩ := ih hrec
        subst h
        refine ⟨by simpa using hi1, by simpa using hi2, ?_⟩
        intro i3 hi3lt
        cases i3 with
        | zero => simpa using hp
        | succ i4 =>
          simpa using hi3 i4 (by omega)

theorem firstIdxP_none {α : Type} [Inhabited α] {p : Rec α → Bool} :
    ∀ {blk : List (Rec α)}, firstIdxP p blk = none →
      ∀ i < blk.length, ¬p (blk.getD i default) := by
  intro blk
  induction blk with
  | nil => intro _ i hi; simp at hi
  | cons r rest ih =>
    intro h i hi
    unfold firstIdxP at h
    by_cases hp : p r
    · rw [if_pos hp] at h; cases h
    · rw [if_neg hp] at h
      cases hrec : firstIdxP p rest with
      | some i2 => rw [hrec] at h; cases h
      | none =>
        cases i with
        | zero => simpa using hp
        | succ i2 =>
          simpa using ih hrec i2 (by simpa using hi)

theorem lastIdxP_none {α : Type} [Inhabited α] {p : Rec α → Bool} :
    ∀ {blk : List (Rec α)}, lastIdxP p blk = none →
      ∀ i < blk.length, ¬p (blk.getD i default) := by
  intro blk
  induction blk with
  | nil => intro _ i hi; simp at hi
  | cons r rest ih =>
    intro h i hi
    unfold lastIdxP at h
    cases hrec : lastIdxP p rest with
    | some i2 => rw [hrec] at h; dsimp only at h; cases h
    | none =>
      rw [hrec] at h
      dsimp only at h
      by_cases hp : p r
      · rw [if_pos hp] at h; cases h
      · cases i with
        | zero => simpa using hp
        | succ i2 =>
          simpa using ih hrec i2 (by simpa using hi)

theorem lastIdxP_some {α : Type} [Inhabited α] {p : Rec α → Bool} :
    ∀ {blk : List (Rec α)} {i : Nat}, lastIdxP p blk = some i →
      i < blk.length ∧ p (blk.getD i default) ∧
        ∀ i2, i < i2 → i2 < blk.length → ¬p (blk.getD i2 default) := by
  intro blk
  induction blk with
  | nil => intro i h; cases h
  | cons r rest ih =>
    intro i h
    unfold lastIdxP at h
    cases hrec : lastIdxP p rest with
    | some i2 =>
      rw [hrec] at h
      dsimp only at h
      cases h
      obtain ⟨hi1, hi2, hi3⟩ := ih hrec
      refine ⟨by simpa using hi1, by simpa using hi2, ?_⟩
      intro i3 hgt hlt
      cases i3 with
      | zero => omega
      | succ i4 =>
        simpa using hi3 i4 (by omega) (by simpa using hlt)
    | none =>
      rw [hrec] at h
      dsimp only at h
      by_cases hp : p r
      · rw [if_pos hp] at h
        cases h
        refine ⟨by simp, by simpa using hp, ?_⟩
        intro i3 hgt hlt
        cases i3 with
        | zero => omega
        | succ i4 =>
          simpa using lastIdxP_none hrec i4 (by simpa using hlt)
      · rw [if_neg hp] at h
        cases h

theorem take_getD {α : Type} [Inhabited α] {blk : List (Rec α)} {m i : Nat}
    (him : i < m) (hil : i < blk.length) :
    (blk.take m).getD i default = blk.getD i default := by
  have hlen : i < (blk.take m).length := by
    rw [List.length_take]; omega
  rw [List.getD_eq_getElem _ _ hlen, List.getD_eq_getElem _ _ hil]
  rw [List.getElem_take]

theorem flatScanGE_some {α : Type} [Inhabited α] {blk : List (Rec α)}
    {first : Nat} {q : Int} {g : Nat} (h : flatScanGE blk first q = some g) :
    ∃ i, g = first + i ∧ i < blk.length ∧ q ≤ (blk.getD i default).ts ∧
      ∀ i2 < i, (blk.getD i2 default).ts < q := by
  unfold flatScanGE at h
  cases hf : firstIdxP (fun r => r.ts ≥ q) blk with
  | none => rw [hf] at h; cases h
  | some i =>
    rw [hf] at h
    simp at h
    obtain ⟨hi1, hi2, hi3⟩ := firstIdxP_some hf
    refine ⟨i, by omega, hi1, by simpa using hi2, ?_⟩
    intro i2 hlt
    have := hi3 i2 hlt
    simpa using this

theorem flatScanGE_none {α : Type} [Inhabited α] {blk : List (Rec α)}
    {first : Nat} {q : Int} (h : flatScanGE blk first q = none) :
    ∀ i < blk.length, (blk.getD i default).ts < q := by
  unfold flatScanGE at h
  cases hf : firstIdxP (fun r => r.ts ≥ q) blk with
  | some i => rw [hf] at h; cases h
  | none =>
    intro i hi
    have := firstIdxP_none hf i hi
    simpa using this

theorem flatScanLE_some_exists {α : Type} [Inhabited α] {blk : List (Rec α)}
    {first : Nat} {q : Int} {y : Nat} (h : flatScanLE blk first q = some y) :
    ∃ i < blk.length, (blk.getD i default).ts ≤ q := by
  unfold flatScanLE at h
  cases hf : lastIdxP (fun r => r.ts ≤ q) blk with
  | none => rw [hf] at h; cases h
  | some i =>
    obtain ⟨hi1, hi2, _⟩ := lastIdxP_some hf
    exact ⟨i, hi1, by simpa using hi2⟩

theorem flatScanLE_none {α : Type} [Inhabited α] {blk : List (Rec α)}
    {first : Nat} {q : Int} (h : flatScanLE blk first q = none) :
    ∀ i < blk.length, q < (blk.getD i default).ts := by
  unfold flatScanLE at h
  cases hf : lastIdxP (fun r => r.ts ≤ q) blk with
  | some i =>
    rw [hf] at h
    dsimp only at h
    cases hg : lastIdxP (fun r => r.ts < (blk.getD i default).ts)
        (blk.take (i + 1)) with
    | some j => rw [hg] at h; cases h
    | none => rw [hg] at h; cases h
  | none =>
    intro i hi
    have := lastIdxP_none hf i hi
    simpa using this

theorem flatScanLE_lt_len {α : Type} [Inhabited α] {blk : List (Rec α)}
    {q : Int} {y : Nat} (h : flatScanLE blk 0 q = some y) : y < blk.length := by
  unfold flatScanLE at h
  cases hf : lastIdxP (fun r => r.ts ≤ q) blk with
  | none => rw [hf] at h; cases h
  | some i =>
    rw [hf] at h
    dsimp only at h
    obtain ⟨hi1, hi2, _⟩ := lastIdxP_some hf
    cases hg : lastIdxP (fun r => r.ts < (blk.getD i default).ts)
        (blk.take (i + 1)) with
    | some j =>
      rw [hg] at h
      cases h
      obtain ⟨hj1, hj2, _⟩ := lastIdxP_some hg
      have hjlen : j < i + 1 := by
        rw [List.length_take] at hj1; omega
      have hji : j ≠ i := by
        intro hc
        rw [hc, take_getD (by omega) hi1] at hj2
        simp at hj2
      omega
    | none =>
      rw [hg] at h
      cases h
      omega

theorem flatScanLE_ts_le {α : Type} [Inhabited α] {blk : List (Rec α)}
    (hs : blk.Pairwise tsLE) {q : Int} {y : Nat}
    (h : flatScanLE blk 0 q = some y) : (blk.getD y default).ts ≤ q := by
  unfold flatScanLE at h
  cases hf : lastIdxP (fun r => r.ts ≤ q) blk with
  | none => rw [hf] at h; cases h
  | some i =>
    rw [hf] at h
    dsimp only at h
    obtain ⟨hi1, hi2, _⟩ := lastIdxP_some hf
    cases hg : lastIdxP (fun r => r.ts < (blk.getD i default).ts)
        (blk.take (i + 1)) with
    | some j =>
      rw [hg] at h
      cases h
      obtain ⟨hj1, hj2, _⟩ := lastIdxP_some hg
      have hjlen : j < i + 1 := by
        rw [List.length_take] at hj1; omega
      have hji : j ≠ i := by
        intro hc
        rw [hc, take_getD (by omega) hi1] at hj2
        simp at hj2
      have hle := pairwise_getD_mono hs (show 0 + j + 1 ≤ i by omega) hi1
      exact le_trans hle (by simpa using hi2)
    | none =>
      rw [hg] at h
      cases h
      have hle := pairwise_getD_mono hs (show 0 ≤ i by omega) hi1
      exact le_trans hle (by simpa using hi2)

theorem ridGECore_eval {α : Type} [Inhabited α] {data : List (Rec α)}
    {first last : Nat} (q : Int) (h1 : first ≤ last)
    (h2 : last < data.length) :
    ridGECore data first last q =
      .ok (flatScanGE ((data.drop first).take (last - first + 1)) first q) := by
  unfold ridGECore
  rw [tableSlice_ok h1 h2]
  rfl

theorem ridLECore_eval {α : Type} [Inhabited α] {data : List (Rec α)}
    {first last : Nat} (q : Int) (h1 : first ≤ last)
    (h2 : last < data.length) :
    ridLECore data first last q =
      .ok (flatScanLE ((data.drop first).take (last - first + 1)) first q) := by
  unfold ridLECore
  rw [tableSlice_ok h1 h2]
  rfl

theorem ridGECore_some_spec {α : Type} [Inhabited α] {data : List (Rec α)}
    {first last : Nat} {q : Int} {g : Nat} (h1 : first ≤ last)
    (h2 : last < data.length)
    (h : ridGECore data first last q = .ok (some g)) :
    first ≤ g ∧ g ≤ last ∧ q ≤ (data.getD g default).ts := by
  rw [ridGECore_eval q h1 h2] at h
  simp only [Except.ok.injEq] at h
  obtain ⟨i, hg, hilen, hts, _⟩ := flatScanGE_some h
  rw [slice_length h1 h2] at hilen
  rw [slice_getD h1 h2 (by omega)] at hts
  exact ⟨by omega, by omega, by rw [hg]; exact hts⟩

theorem ridGECore_none_spec {α : Type} [Inhabited α] {data : List (Rec α)}
    {first last : Nat} {q : Int} (h1 : first ≤ last)
    (h2 : last < data.length)
    (h : ridGECore data first last q = .ok none) :
    ∀ j, first ≤ j → j ≤ last → (data.getD j default).ts < q := by
  rw [ridGECore_eval q h1 h2] at h
  simp only [Except.ok.injEq] at h
  intro j hj1 hj2
  have := flatScanGE_none h (j - first)
    (by rw [slice_length h1 h2]; omega)
  rw [slice_getD h1 h2 (by omega)] at this
  rw [show first + (j - first) = j by omega] at this
  exact this

theorem ridLECore_some_exists {α : Type} [Inhabited α] {data : List (Rec α)}
    {first last : Nat} {q : Int} {y : Nat} (h1 : first ≤ last)
    (h2 : last < data.length)
    (h : ridLECore data first last q = .ok (some y)) :
    ∃ a, first ≤ a ∧ a ≤ last ∧ (data.getD a default).ts ≤ q := by
  rw [ridLECore_eval q h1 h2] at h
  simp only [Except.ok.injEq] at h
  obtain ⟨i, hilen, hts⟩ := flatScanLE_some_exists h
  rw [slice_length h1 h2] at hilen
  rw [slice_getD h1 h2 (by omega)] at hts
  exact ⟨first + i, by omega, by omega, hts⟩

theorem ridGECore_self {α : Type} [Inhabited α] {idx : List (Rec α)}
    (hne : idx ≠ []) (q : Int) :
    ridGECore idx 0 (idx.length - 1) q = .ok (flatScanGE idx 0 q) := by
  have hlen : 1 ≤ idx.length := List.length_pos.mpr hne
  rw [ridGECore_eval q (by omega) (by omega)]
  rw [List.drop_zero, show idx.length - 1 - 0 + 1 = idx.length by omega,
    List.take_length]

theorem ridLECore_self {α : Type} [Inhabited α] {idx : List (Rec α)}
    (hne : idx ≠ []) (q : Int) :
    ridLECore idx 0 (idx.length - 1) q = .ok (flatScanLE idx 0 q) := by
  have hlen : 1 ≤ idx.length := List.length_pos.mpr hne
  rw [ridLECore_eval q (by omega) (by omega)]
  rw [List.drop_zero, show idx.length - 1 - 0 + 1 = idx.length by omega,
    List.take_length]

theorem indexBracket_spec {α : Type} [Inhabited α] {t : TS α}
    {idx : List IdxRec} (hs : t.data.Pairwise tsLE)
    (hIdx : IdxInv t.data (some idx)) (hne : idx ≠ [])
    (hd : t.data ≠ []) (q : Int) :
    ∃ r, indexBracket t idx q = .ok r ∧
      (∀ rid, r = .inl rid → rid < t.data.length ∧
        (t.data.getD rid default).ts = q) ∧
      (∀ f l, r = .inr (f, l) → f ≤ l ∧ l < t.data.length) := by
  have hidxs : idx.Pairwise tsLE := hIdx.1
  have hal : ∀ e ∈ idx, Aligned t.data e := hIdx.2
  have hn1 : 1 ≤ t.data.length := List.length_pos.mpr hd
  unfold indexBracket
  rw [ridLECore_self hne q]
  simp only [bind, Except.bind]
  cases hLE : flatScanLE idx 0 q with
  | none =>
    dsimp only
    rw [ridGECore_self hne q]
    dsimp only
    cases hGE : flatScanGE idx 0 q with
    | none =>
      refine ⟨.inr (0, t.data.length - 1), rfl, by simp, ?_⟩
      intro f l hfl
      cases hfl
      omega
    | some iGE =>
      obtain ⟨i, hig, hilen, _, _⟩ := flatScanGE_some hGE
      have hmem : idx.getD iGE default ∈ idx := by
        rw [List.getD_eq_getElem _ _ (by omega)]
        exact List.getElem_mem _
      obtain ⟨hb1, _, _⟩ := hal _ hmem
      refine ⟨.inr (0, (idx.getD iGE default).val), rfl, by simp, ?_⟩
      intro f l hfl
      cases hfl
      exact ⟨by omega, hb1⟩
  | some iLE =>
    dsimp only
    have hiLE : iLE < idx.length := flatScanLE_lt_len hLE
    have hmemLE : idx.getD iLE default ∈ idx := by
      rw [List.getD_eq_getElem _ _ hiLE]
      exact List.getElem_mem _
    obtain ⟨he1, he2, _⟩ := hal _ hmemLE
    by_cases heq : (idx.getD iLE default).ts = q
    · rw [if_pos heq]
      refine ⟨.inl (idx.getD iLE default).val, rfl, ?_, by simp⟩
      intro rid hr
      cases hr
      rw [he2, heq]
      exact ⟨he1, rfl⟩
    · rw [if_neg heq]
      rw [ridGECore_self hne q]
      dsimp only
      cases hGE : flatScanGE idx 0 q with
      | none =>
        refine ⟨.inr ((idx.getD iLE default).val, t.data.length - 1), rfl,
          by simp, ?_⟩
        intro f l hfl
        cases hfl
        exact ⟨by omega, by omega⟩
      | some iGE =>
        obtain ⟨i, hig, hilen, hits, _⟩ := flatScanGE_some hGE
        have hmemGE : idx.getD iGE default ∈ idx := by
          rw [List.getD_eq_getElem _ _ (by omega)]
          exact List.getElem_mem _
        obtain ⟨hg1, hg2, _⟩ := hal _ hmemGE
        have hltq : (idx.getD iLE default).ts < q :=
          lt_of_le_of_ne (flatScanLE_ts_le hidxs hLE) heq
        have higts : q ≤ (idx.getD iGE default).ts := by
          rw [hig]
          simpa using hits
        have hlt : (idx.getD iLE default).val < (idx.getD iGE default).val := by
          by_contra hc
          have := pairwise_getD_mono hs (show (idx.getD iGE default).val ≤
            (idx.getD iLE default).val by omega) he1
          rw [he2, hg2] at this
          omega
        refine ⟨.inr ((idx.getD iLE default).val, (idx.getD iGE default).val),
          rfl, by simp, ?_⟩
        intro f l hfl
        cases hfl
        exact ⟨by omega, hg1⟩

theorem indexBracket_err_empty {α : Type} [Inhabited α] (t : TS α) (q : Int) :
    indexBracket t ([] : List IdxRec) q = .error .IndexOutOfRange := rfl

theorem ridGECore_err_empty {α : Type} [Inhabited α] {data : List (Rec α)}
    (hd : data = []) (first last : Nat) (q : Int) :
    ridGECore data first last q = .error .IndexOutOfRange := by
  subst hd
  unfold ridGECore tableSlice
  rw [if_pos (by simp)]
  rfl

theorem ridLECore_err_empty {α : Type} [Inhabited α] {data : List (Rec α)}
    (hd : data = []) (first last : Nat) (q : Int) :
    ridLECore data first last q = .error .IndexOutOfRange := by
  subst hd
  unfold ridLECore tableSlice
  rw [if_pos (by simp)]
  rfl

theorem recordId_degenerate {α : Type} [Inhabited α] {t : TS α}
    (hInv : Inv t) (hdeg : t.data = [] ∨ t.index = some []) (q : Int) :
    t.recordId_GE q = .error .IndexOutOfRange ∧
      t.recordId_LE q = .error .IndexOutOfRange := by
  cases hidx : t.index with
  | none =>
    have hd : t.data = [] := by
      rcases hdeg with h | h
      · exact h
      · rw [hidx] at h; cases h
    constructor
    · show TS.recordId_GE t q = _
      unfold TS.recordId_GE
      rw [hidx]
      exact ridGECore_err_empty hd _ _ q
    · show TS.recordId_LE t q = _
      unfold TS.recordId_LE
      rw [hidx]
      exact ridLECore_err_empty hd _ _ q
  | some idx =>
    cases hidxe : idx with
    | nil =>
      constructor
      · unfold TS.recordId_GE
        rw [hidx, hidxe]
        rfl
      · unfold TS.recordId_LE
        rw [hidx, hidxe]
        rfl
    | cons e rest =>
      rcases hdeg with h | h
      · have hIdx : IdxInv t.data (some idx) := by
          rw [← hidx]; exact hInv.2
        have := (hIdx.2 e (by rw [hidxe]; simp)).1
        rw [h] at this
        simp at this
      · rw [hidx] at h
        cases h
        cases hidxe

theorem recordId_GE_total {α : Type} [Inhabited α] {t : TS α} (hInv : Inv t)
    (hd : t.data ≠ []) (hi : t.index ≠ some []) (q : Int) :
    ∃ r, t.recordId_GE q = .ok r := by
  have hn1 : 1 ≤ t.data.length := List.length_pos.mpr hd
  cases hidx : t.index with
  | none =>
    exact ⟨_, by
      unfold TS.recordId_GE
      rw [hidx]
      exact ridGECore_eval q (by omega) (by omega)⟩
  | some idx =>
    have hne : idx ≠ [] := by
      intro hc; rw [hc] at hidx; exact hi hidx
    have hIdx : IdxInv t.data (some idx) := by
      rw [← hidx]; exact hInv.2
    obtain ⟨r, hbr, hinl, hinr⟩ := indexBracket_spec hInv.1 hIdx hne hd q
    unfold TS.recordId_GE
    rw [hidx]
    dsimp only
    rw [hbr]
    dsimp only [bind, Except.bind]
    cases r with
    | inl rid => exact ⟨some rid, rfl⟩
    | inr pr =>
      cases pr with
      | mk f l =>
        obtain ⟨hfl, hln⟩ := hinr f l rfl
        exact ⟨_, ridGECore_eval q hfl hln⟩

theorem recordId_LE_total {α : Type} [Inhabited α] {t : TS α} (hInv : Inv t)
    (hd : t.data ≠ []) (hi : t.index ≠ some []) (q : Int) :
    ∃ r, t.recordId_LE q = .ok r := by
  have hn1 : 1 ≤ t.data.length := List.length_pos.mpr hd
  cases hidx : t.index with
  | none =>
    exact ⟨_, by
      unfold TS.recordId_LE
      rw [hidx]
      exact ridLECore_eval q (by omega) (by omega)⟩
  | some idx =>
    have hne : idx ≠ [] := by
      intro hc; rw [hc] at hidx; exact hi hidx
    have hIdx : IdxInv t.data (some idx) := by
      rw [← hidx]; exact hInv.2
    obtain ⟨r, hbr, hinl, hinr⟩ := indexBracket_spec hInv.1 hIdx hne hd q
    unfold TS.recordId_LE
    rw [hidx]
    dsimp only
    rw [hbr]
    dsimp only [bind, Except.bind]
    cases r with
    | inl rid => exact ⟨some rid, rfl⟩
    | inr pr =>
      cases pr with
      | mk f l =>
        obtain ⟨hfl, hln⟩ := hinr f l rfl
        exact ⟨_, ridLECore_eval q hfl hln⟩

theorem recordId_GE_some_spec {α : Type} [Inhabited α] {t : TS α}
    (hInv : Inv t) {q : Int} {g : Nat}
    (h : t.recordId_GE q = .ok (some g)) :
    g < t.data.length ∧ q ≤ (t.data.getD g default).ts := by
  cases hidx : t.index with
  | none =>
    unfold TS.recordId_GE at h
    rw [hidx] at h
    by_cases hd : t.data = []
    · rw [ridGECore_err_empty hd] at h; cases h
    · have hn1 : 1 ≤ t.data.length := List.length_pos.mpr hd
      obtain ⟨_, hg2, hg3⟩ := ridGECore_some_spec (by omega) (by omega) h
      exact ⟨by omega, hg3⟩
  | some idx =>
    unfold TS.recordId_GE at h
    rw [hidx] at h
    dsimp only at h
    by_cases hne : idx = []
    · subst hne
      rw [indexBracket_err_empty] at h
      cases h
    · by_cases hd : t.data = []
      · exfalso
        have hIdx : IdxInv t.data (some idx) := by
          rw [← hidx]; exact hInv.2
        cases idx with
        | nil => exact hne rfl
        | cons e rest =>
          have := (hIdx.2 e (by simp)).1
          rw [hd] at this
          simp at this
      · have hIdx : IdxInv t.data (some idx) := by
          rw [← hidx]; exact hInv.2
        obtain ⟨r, hbr, hinl, hinr⟩ := indexBracket_spec hInv.1 hIdx hne hd q
        rw [hbr] at h
        dsimp only [bind, Except.bind] at h
        cases r with
        | inl rid =>
          simp only [Except.ok.injEq, Option.some.injEq] at h
          obtain ⟨hr1, hr2⟩ := hinl rid rfl
          subst h
          exact ⟨hr1, by rw [hr2]⟩
        | inr pr =>
          cases pr with
          | mk f l =>
            obtain ⟨hfl, hln⟩ := hinr f l rfl
            obtain ⟨_, hg2, hg3⟩ := ridGECore_some_spec hfl hln h
            exact ⟨by omega, hg3⟩

theorem recordId_LE_some_exists {α : Type} [Inhabited α] {t : TS α}
    (hInv : Inv t) {q : Int} {y : Nat}
    (h : t.recordId_LE q = .ok (some y)) :
    ∃ a < t.data.length, (t.data.getD a default).ts ≤ q := by
  cases hidx : t.index with
  | none =>
    unfold TS.recordId_LE at h
    rw [hidx] at h
    by_cases hd : t.data = []
    · rw [ridLECore_err_empty hd] at h; cases h
    · have hn1 : 1 ≤ t.data.length := List.length_pos.mpr hd
      obtain ⟨a, _, ha2, ha3⟩ := ridLECore_some_exists (by omega) (by omega) h
      exact ⟨a, by omega, ha3⟩
  | some idx =>
    unfold TS.recordId_LE at h
    rw [hidx] at h
    dsimp only at h
    by_cases hne : idx = []
    · subst hne
      rw [indexBracket_err_empty] at h
      cases h
    · by_cases hd : t.data = []
      · exfalso
        have hIdx : IdxInv t.data (some idx) := by
          rw [← hidx]; exact hInv.2
        cases idx with
        | nil => exact hne rfl
        | cons e rest =>
          have := (hIdx.2 e (by simp)).1
          rw [hd] at this
          simp at this
      · have hIdx : IdxInv t.data (some idx) := by
          rw [← hidx]; exact hInv.2
        obtain ⟨r, hbr, hinl, hinr⟩ := indexBracket_spec hInv.1 hIdx hne hd q
        rw [hbr] at h
        dsimp only [bind, Except.bind] at h
        cases r with
        | inl rid =>
          obtain ⟨hr1, hr2⟩ := hinl rid rfl
          exact ⟨rid, hr1, le_of_eq hr2⟩
        | inr pr =>
          cases pr with
          | mk f l =>
            obtain ⟨hfl, hln⟩ := hinr f l rfl
            obtain ⟨a, _, ha2, ha3⟩ := ridLECore_some_exists hfl hln h
            exact ⟨a, by omega, ha3⟩

theorem recordSet_eval_geErr {α : Type} [Inhabited α] {t : TS α}
    {s e : Int} {err : Err} (hse : ¬s > e)
    (h1 : t.recordId_GE s = .error err) : t.recordSet s e = .error err := by
  unfold TS.recordSet
  rw [if_neg hse, h1]
  rfl

theorem recordSet_eval_geNone {α : Type} [Inhabited α] {t : TS α}
    {s e : Int} (hse : ¬s > e) (h1 : t.recordId_GE s = .ok none) :
    t.recordSet s e = .error .NoRecords := by
  unfold TS.recordSet
  rw [if_neg hse, h1]
  rfl

theorem recordSet_eval_leErr {α : Type} [Inhabited α] {t : TS α}
    {s e : Int} {sid : Nat} {err : Err} (hse : ¬s > e)
    (h1 : t.recordId_GE s = .ok (some sid))
    (h2 : t.recordId_LE e = .error err) : t.recordSet s e = .error err := by
  unfold TS.recordSet
  rw [if_neg hse, h1, h2]
  rfl

theorem recordSet_eval_leNone {α : Type} [Inhabited α] {t : TS α}
    {s e : Int} {sid : Nat} (hse : ¬s > e)
    (h1 : t.recordId_GE s = .ok (some sid))
    (h2 : t.recordId_LE e = .ok none) :
    t.recordSet s e = .error .NoRecords := by
  unfold TS.recordSet
  rw [if_neg hse, h1, h2]
  rfl

theorem recordSet_eval_g2Err {α : Type} [Inhabited α] {t : TS α}
    {s e : Int} {sid y : Nat} {err : Err} (hse : ¬s > e)
    (h1 : t.recordId_GE s = .ok (some sid))
    (h2 : t.recordId_LE e = .ok (some y))
    (h3 : t.recordId_GE (wrap64 (e + 1)) = .error err) :
    t.recordSet s e = .error err := by
  unfold TS.recordSet
  rw [if_neg hse, h1, h2, h3]
  rfl

theorem recordSet_eval_g2Some {α : Type} [Inhabited α] {t : TS α}
    {s e : Int} {sid y g : Nat} (hse : ¬s > e)
    (h1 : t.recordId_GE s = .ok (some sid))
    (h2 : t.recordId_LE e = .ok (some y))
    (h3 : t.recordId_GE (wrap64 (e + 1)) = .ok (some g)) :
    t.recordSet s e =
      (if pred64 g < sid then .ok []
        else tableSlice t.data sid (pred64 g)) := by
  unfold TS.recordSet
  rw [if_neg hse, h1, h2, h3]
  rfl

theorem recordSet_eval_g2None {α : Type} [Inhabited α] {t : TS α}
    {s e : Int} {sid y : Nat} (hse : ¬s > e)
    (h1 : t.recordId_GE s = .ok (some sid))
    (h2 : t.recordId_LE e = .ok (some y))
    (h3 : t.recordId_GE (wrap64 (e + 1)) = .ok none) :
    t.recordSet s e = (if t.data.length - 1 < sid then .ok []
      else tableSlice t.data sid (t.data.length - 1)) := by
  unfold TS.recordSet
  rw [if_neg hse, h1, h2, h3]
  rfl

theorem tableSlice_ne_badrange {α : Type} [Inhabited α]
    {data : List (Rec α)} {first last : Nat} (h : ¬last < first) :
    tableSlice data first last ≠ .error .BadRange := by
  unfold tableSlice
  by_cases hb : first ≥ data.length ∨ last ≥ data.length
  · rw [if_pos hb]; simp
  · rw [if_neg hb, if_neg h]; simp

theorem tableSlice_ne_norecords {α : Type} [Inhabited α]
    {data : List (Rec α)} {first last : Nat} :
    tableSlice data first last ≠ .error .NoRecords := by
  unfold tableSlice
  by_cases hb : first ≥ data.length ∨ last ≥ data.length
  · rw [if_pos hb]; simp
  · rw [if_neg hb]
    by_cases h2 : last < first
    · rw [if_pos h2]; simp
    · rw [if_neg h2]; simp

/-- C5 counterexample: the claim fails at end_ts = 2^63 - 1.  The source
computes the refinement query at end_ts + 1 on the signed 64-bit
timestamp_t, which wraps to -2^63, so the query succeeds at record 0; the
unsigned end_id = 0 - 1 then wraps to 2^64 - 1 and Table::getRecords fails
with its out-of-range read.  The claim instead demands — both searches
having succeeded and the refinement query at the mathematical
end_ts + 1 = 2^63 finding nothing — that records 1 through size - 1 of the
series (10, 20, 30) be returned. -/
theorem c5_recordSet_wrap_counterexample :
    tsThree.recordId_GE 15 = .ok (some 1) ∧
    tsThree.recordId_LE (2 ^ 63 - 1) = .ok (some 2) ∧
    tsThree.recordId_GE (2 ^ 63 - 1 + 1) = .ok none ∧
    tsThree.recordSet 15 (2 ^ 63 - 1) = .error .IndexOutOfRange ∧
    (Except.error Err.IndexOutOfRange ≠
      (.ok ((tsThree.data.drop 1).take (tsThree.data.length - 1 - 1 + 1)) :
        Except Err (List (Rec Unit)))) := by
  decide

/-- C5 amended: semantics of recordSet(start_ts, end_ts) on a series
satisfying the Timeseries invariants, for end timestamps whose refinement
query end_ts + 1 does not overflow the signed 64-bit timestamp_t
(-2^63 ≤ end_ts ≤ 2^63 - 2): it fails BadRange exactly when start > end;
otherwise it fails NoRecords exactly when recordId_GE(start) or
recordId_LE(end) comes back empty; otherwise the end id is refined to
recordId_GE(end+1) - 1 when that query finds a record and to size - 1 when
it does not, an empty RecordSet is returned when the refined end id falls
before the start id, and otherwise exactly the records from start id to the
refined end id inclusive are returned.  (At end_ts = 2^63 - 1 the query
wraps and the call instead fails with the out-of-range read of the table
layer; see the counterexample.) -/
theorem c5_recordSet_semantics {α : Type} [Inhabited α] {t : TS α}
    (hInv : Inv t) (s e : Int)
    (hlo : -(2 ^ 63) ≤ e) (hhi : e ≤ 2 ^ 63 - 2) :
    (t.recordSet s e = .error .BadRange ↔ s > e) ∧
    (s ≤ e → (t.recordSet s e = .error .NoRecords ↔
      (t.recordId_GE s = .ok none ∨ t.recordId_LE e = .ok none))) ∧
    (∀ sid y, s ≤ e → t.recordId_GE s = .ok (some sid) →
      t.recordId_LE e = .ok (some y) →
      (∀ g, t.recordId_GE (e + 1) = .ok (some g) →
        t.recordSet s e = .ok (if g - 1 < sid then []
          else (t.data.drop sid).take (g - 1 - sid + 1))) ∧
      (t.recordId_GE (e + 1) = .ok none →
        t.recordSet s e = .ok (if t.data.length - 1 < sid then []
          else (t.data.drop sid).take (t.data.length - 1 - sid + 1)))) := by
  have hw : wrap64 (e + 1) = e + 1 := by
    unfold wrap64
    rw [Int.emod_eq_of_lt (by omega) (by omega)]
    omega
  by_cases hse : s > e
  · have hbr : t.recordSet s e = .error .BadRange := by
      unfold TS.recordSet
      rw [if_pos hse]
    exact ⟨⟨fun _ => hse, fun _ => hbr⟩,
      fun hle => absurd hle (by omega),
      fun sid y hle => absurd hle (by omega)⟩
  · by_cases hdeg : t.data = [] ∨ t.index = some []
    · have hGEs := (recordId_degenerate hInv hdeg s).1
      have hLEe := (recordId_degenerate hInv hdeg e).2
      have hres := recordSet_eval_geErr hse hGEs
      refine ⟨⟨fun hc => ?_, fun hgt => absurd hgt hse⟩,
        fun hle => ⟨fun hc => ?_, fun hc => ?_⟩, fun sid y hle hGE => ?_⟩
      · rw [hres] at hc; simp at hc
      · rw [hres] at hc; simp at hc
      · rcases hc with hc | hc
        · rw [hGEs] at hc; cases hc
        · rw [hLEe] at hc; cases hc
      · rw [hGEs] at hGE; cases hGE
    · push_neg at hdeg
      obtain ⟨hd, hi⟩ := hdeg
      obtain ⟨rs, hGEs⟩ := recordId_GE_total hInv hd hi s
      cases rs with
      | none =>
        have hres := recordSet_eval_geNone hse hGEs
        refine ⟨⟨fun hc => ?_, fun hgt => absurd hgt hse⟩,
          fun hle => ⟨fun _ => .inl hGEs, fun _ => hres⟩,
          fun sid y hle hGE => ?_⟩
        · rw [hres] at hc; simp at hc
        · rw [hGEs] at hGE; simp at hGE
      | some sid0 =>
        obtain ⟨rl, hLEe⟩ := recordId_LE_total hInv hd hi e
        cases rl with
        | none =>
          have hres := recordSet_eval_leNone hse hGEs hLEe
          refine ⟨⟨fun hc => ?_, fun hgt => absurd hgt hse⟩,
            fun hle => ⟨fun _ => .inr hLEe, fun _ => hres⟩,
            fun sid y hle hGE hLE => ?_⟩
          · rw [hres] at hc; simp at hc
          · rw [hLEe] at hLE; simp at hLE
        | some y0 =>
          obtain ⟨rg, hG2⟩ := recordId_GE_total hInv hd hi (e + 1)
          have hG2w : t.recordId_GE (wrap64 (e + 1)) = .ok rg := by
            rw [hw]
            exact hG2
          obtain ⟨hsidn, _⟩ := recordId_GE_some_spec hInv hGEs
          obtain ⟨a, han, hats⟩ := recordId_LE_some_exists hInv hLEe
          cases rg with
          | some g =>
            obtain ⟨hgn, hgts⟩ := recordId_GE_some_spec hInv hG2
            have hg1 : 1 ≤ g := by
              by_contra hc
              have hg0 : g = 0 := by omega
              rw [hg0] at hgts
              have := pairwise_getD_mono hInv.1 (show 0 ≤ a by omega) han
              omega
            have hpred : pred64 g = g - 1 := by
              unfold pred64
              rw [if_neg (show ¬g = 0 by omega)]
            have hres := recordSet_eval_g2Some hse hGEs hLEe hG2w
            rw [hpred] at hres
            refine ⟨⟨fun hc => ?_, fun hgt => absurd hgt hse⟩,
              fun hle => ⟨fun hc => ?_, fun hc => ?_⟩,
              fun sid y hle hGE hLE => ?_⟩
            · rw [hres] at hc
              by_cases hcc : g - 1 < sid0
              · rw [if_pos hcc] at hc; cases hc
              · rw [if_neg hcc] at hc
                exact absurd hc (tableSlice_ne_badrange (by omega))
            · rw [hres] at hc
              by_cases hcc : g - 1 < sid0
              · rw [if_pos hcc] at hc; cases hc
              · rw [if_neg hcc] at hc
                exact absurd hc tableSlice_ne_norecords
            · rcases hc with hc | hc
              · rw [hGEs] at hc; simp at hc
              · rw [hLEe] at hc; simp at hc
            · have hsid : sid = sid0 := by
                rw [hGEs] at hGE; simp at hGE; omega
              rw [hsid]
              constructor
              · intro g2 hg2
                have hg2e : g2 = g := by
                  rw [hG2] at hg2; simp at hg2; omega
                rw [hg2e, hres]
                by_cases hcc : g - 1 < sid0
                · rw [if_pos hcc, if_pos hcc]
                · rw [if_neg hcc, if_neg hcc]
                  rw [tableSlice_ok (by omega) (by omega)]
              · intro hg2
                rw [hG2] at hg2; simp at hg2
          | none =>
            have hn1 : 1 ≤ t.data.length := by omega
            have hres := recordSet_eval_g2None hse hGEs hLEe hG2w
            refine ⟨⟨fun hc => ?_, fun hgt => absurd hgt hse⟩,
              fun hle => ⟨fun hc => ?_, fun hc => ?_⟩,
              fun sid y hle hGE hLE => ?_⟩
            · rw [hres] at hc
              by_cases hcc : t.data.length - 1 < sid0
              · rw [if_pos hcc] at hc; cases hc
              · rw [if_neg hcc] at hc
                exact absurd hc (tableSlice_ne_badrange (by omega))
            · rw [hres] at hc
              by_cases hcc : t.data.length - 1 < sid0
              · rw [if_pos hcc] at hc; cases hc
              · rw [if_neg hcc] at hc
                exact absurd hc tableSlice_ne_norecords
            · rcases hc with hc | hc
              · rw [hGEs] at hc; simp at hc
              · rw [hLEe] at hc; simp at hc
            · have hsid : sid = sid0 := by
                rw [hGEs] at hGE; simp at hGE; omega
              rw [hsid]
              constructor
              · intro g2 hg2
                rw [hG2] at hg2; simp at hg2
              · intro _
                rw [hres]
                by_cases hcc : t.data.length - 1 < sid0
                · rw [if_pos hcc, if_pos hcc]
                · rw [if_neg hcc, if_neg hcc]
                  rw [tableSlice_ok (by omega) (by omega)]

/-- C5 witness: the statement applied to the three-record series with
timestamps 10, 20, 30 and the range [15, 25]. -/
theorem c5_recordSet_semantics_witness :
    (tsThree.recordSet 15 25 = .error .BadRange ↔ (15 : Int) > 25) ∧
    ((15 : Int) ≤ 25 → (tsThree.recordSet 15 25 = .error .NoRecords ↔
      (tsThree.recordId_GE 15 = .ok none ∨
        tsThree.recordId_LE 25 = .ok none))) ∧
    (∀ sid y, (15 : Int) ≤ 25 → tsThree.recordId_GE 15 = .ok (some sid) →
      tsThree.recordId_LE 25 = .ok (some y) →
      (∀ g, tsThree.recordId_GE (25 + 1) = .ok (some g) →
        tsThree.recordSet 15 25 = .ok (if g - 1 < sid then []
          else (tsThree.data.drop sid).take (g - 1 - sid + 1))) ∧
      (tsThree.recordId_GE (25 + 1) = .ok none →
        tsThree.recordSet 15 25 = .ok (if tsThree.data.length - 1 < sid then []
          else (tsThree.data.drop sid).take
            (tsThree.data.length - 1 - sid + 1)))) := by
  have hinv : Inv tsThree := by
    refine ⟨?_, ?_⟩
    · show List.Pairwise tsLE [⟨10, ()⟩, ⟨20, ()⟩, ⟨30, ()⟩]
      norm_num [List.pairwise_cons, tsLE]
    · show IdxInv tsThree.data none
      trivial
  exact c5_recordSet_semantics hinv 15 25 (by decide) (by decide)

theorem count_eval_gt {α : Type} [Inhabited α] {t : TS α} {s e : Int}
    (hse : s > e) : t.getNRecordsByTimestamp s e = .ok 0 := by
  unfold TS.getNRecordsByTimestamp
  rw [if_pos hse]

theorem count_eval_geNone {α : Type} [Inhabited α] {t : TS α} {s e : Int}
    (hse : ¬s > e) (h1 : t.recordId_GE s = .ok none) :
    t.getNRecordsByTimestamp s e = .ok 0 := by
  unfold TS.getNRecordsByTimestamp
  rw [if_neg hse, h1]
  rfl

theorem count_eval_leNone {α : Type} [Inhabited α] {t : TS α} {s e : Int}
    {sid : Nat} (hse : ¬s > e) (h1 : t.recordId_GE s = .ok (some sid))
    (h2 : t.recordId_LE e = .ok none) :
    t.getNRecordsByTimestamp s e = .ok 0 := by
  unfold TS.getNRecordsByTimestamp
  rw [if_neg hse, h1, h2]
  rfl

theorem count_eval_g2Some {α : Type} [Inhabited α] {t : TS α} {s e : Int}
    {sid y g : Nat} (hse : ¬s > e)
    (h1 : t.recordId_GE s = .ok (some sid))
    (h2 : t.recordId_LE e = .ok (some y))
    (h3 : t.recordId_GE (e + 1) = .ok (some g)) :
    t.getNRecordsByTimestamp s e =
      (if g - 1 < sid then .ok 0 else .ok (g - 1 - sid + 1)) := by
  unfold TS.getNRecordsByTimestamp
  rw [if_neg hse, h1, h2, h3]
  rfl

theorem count_eval_g2None {α : Type} [Inhabited α] {t : TS α} {s e : Int}
    {sid y : Nat} (hse : ¬s > e)
    (h1 : t.recordId_GE s = .ok (some sid))
    (h2 : t.recordId_LE e = .ok (some y))
    (h3 : t.recordId_GE (e + 1) = .ok none) :
    t.getNRecordsByTimestamp s e = (if t.data.length - 1 < sid then .ok 0
      else .ok (t.data.length - 1 - sid + 1)) := by
  unfold TS.getNRecordsByTimestamp
  rw [if_neg hse, h1, h2, h3]
  rfl

theorem brs_eval_gt {α : Type} [Inhabited α] {t : TS α} {s e : Int}
    (hse : s > e) : t.bufferedRecordSet s e = .ok none := by
  unfold TS.bufferedRecordSet
  rw [if_pos hse]

theorem brs_eval_geNone {α : Type} [Inhabited α] {t : TS α} {s e : Int}
    (hse : ¬s > e) (h1 : t.recordId_GE s = .ok none) :
    t.bufferedRecordSet s e = .ok none := by
  unfold TS.bufferedRecordSet
  rw [if_neg hse, h1]
  rfl

theorem brs_eval_leNone {α : Type} [Inhabited α] {t : TS α} {s e : Int}
    {sid : Nat} (hse : ¬s > e) (h1 : t.recordId_GE s = .ok (some sid))
    (h2 : t.recordId_LE e = .ok none) :
    t.bufferedRecordSet s e = .ok none := by
  unfold TS.bufferedRecordSet
  rw [if_neg hse, h1, h2]
  rfl

theorem brs_eval_g2Some {α : Type} [Inhabited α] {t : TS α} {s e : Int}
    {sid y g : Nat} (hse : ¬s > e)
    (h1 : t.recordId_GE s = .ok (some sid))
    (h2 : t.recordId_LE e = .ok (some y))
    (h3 : t.recordId_GE (e + 1) = .ok (some g)) :
    t.bufferedRecordSet s e =
      (if g - 1 < sid then .ok none else .ok (some (sid, g - 1))) := by
  unfold TS.bufferedRecordSet
  rw [if_neg hse, h1, h2, h3]
  rfl

theorem brs_eval_g2None {α : Type} [Inhabited α] {t : TS α} {s e : Int}
    {sid y : Nat} (hse : ¬s > e)
    (h1 : t.recordId_GE s = .ok (some sid))
    (h2 : t.recordId_LE e = .ok (some y))
    (h3 : t.recordId_GE (e + 1) = .ok none) :
    t.bufferedRecordSet s e = (if t.data.length - 1 < sid then .ok none
      else .ok (some (sid, t.data.length - 1))) := by
  unfold TS.bufferedRecordSet
  rw [if_neg hse, h1, h2, h3]
  rfl

/-- C10 amended: on a series satisfying the invariants whose data table is
non-empty and whose child index, when present, is non-empty, the
timestamp-range count query and the BufferedRecordSet query never fail (in
particular never with BadRange or NoRecords): both return normally for all
timestamps, the count is 0 and the BufferedRecordSet empty when start > end,
when either timestamp search finds nothing (the range lies outside the
stored data), and when the refined end id falls before the start id (no
record in [start, end]).  On an empty data table or an empty child index both
queries instead fail with the out-of-bounds read error of Table::getRecords
(see the counterexample). -/
theorem c10_count_buffered_never_fail {α : Type} [Inhabited α] {t : TS α}
    (hInv : Inv t) (hd : t.data ≠ []) (hi : t.index ≠ some []) (s e : Int) :
    (∃ c, t.getNRecordsByTimestamp s e = .ok c) ∧
    (∃ w, t.bufferedRecordSet s e = .ok w) ∧
    (s > e → t.getNRecordsByTimestamp s e = .ok 0 ∧
      t.bufferedRecordSet s e = .ok none) ∧
    (s ≤ e → (t.recordId_GE s = .ok none ∨ t.recordId_LE e = .ok none) →
      t.getNRecordsByTimestamp s e = .ok 0 ∧
        t.bufferedRecordSet s e = .ok none) ∧
    (∀ sid y g, s ≤ e → t.recordId_GE s = .ok (some sid) →
      t.recordId_LE e = .ok (some y) →
      t.recordId_GE (e + 1) = .ok (some g) → g - 1 < sid →
      t.getNRecordsByTimestamp s e = .ok 0 ∧
        t.bufferedRecordSet s e = .ok none) := by
  by_cases hse : s > e
  · exact ⟨⟨0, count_eval_gt hse⟩, ⟨none, brs_eval_gt hse⟩,
      fun _ => ⟨count_eval_gt hse, brs_eval_gt hse⟩,
      fun hle => absurd hle (by omega),
      fun sid y g hle => absurd hle (by omega)⟩
  · obtain ⟨rs, hGEs⟩ := recordId_GE_total hInv hd hi s
    cases rs with
    | none =>
      have hc := count_eval_geNone hse hGEs
      have hb := brs_eval_geNone hse hGEs
      refine ⟨⟨0, hc⟩, ⟨none, hb⟩, fun hgt => absurd hgt hse,
        fun _ _ => ⟨hc, hb⟩, fun sid y g hle hGE => ?_⟩
      rw [hGEs] at hGE; simp at hGE
    | some sid0 =>
      obtain ⟨rl, hLEe⟩ := recordId_LE_total hInv hd hi e
      cases rl with
      | none =>
        have hc := count_eval_leNone hse hGEs hLEe
        have hb := brs_eval_leNone hse hGEs hLEe
        refine ⟨⟨0, hc⟩, ⟨none, hb⟩, fun hgt => absurd hgt hse,
          fun _ _ => ⟨hc, hb⟩, fun sid y g hle hGE hLE => ?_⟩
        rw [hLEe] at hLE; simp at hLE
      | some y0 =>
        obtain ⟨rg, hG2⟩ := recordId_GE_total hInv hd hi (e + 1)
        cases rg with
        | some g0 =>
          have hc := count_eval_g2Some hse hGEs hLEe hG2
          have hb := brs_eval_g2Some hse hGEs hLEe hG2
          refine ⟨?_, ?_, fun hgt => absurd hgt hse,
            fun _ hdis => ?_, fun sid y g hle hGE hLE hG2b hlt => ?_⟩
          · rw [hc]
            by_cases hcc : g0 - 1 < sid0
            · rw [if_pos hcc]; exact ⟨0, rfl⟩
            · rw [if_neg hcc]; exact ⟨_, rfl⟩
          · rw [hb]
            by_cases hcc : g0 - 1 < sid0
            · rw [if_pos hcc]; exact ⟨none, rfl⟩
            · rw [if_neg hcc]; exact ⟨_, rfl⟩
          · rcases hdis with hdis | hdis
            · rw [hGEs] at hdis; simp at hdis
            · rw [hLEe] at hdis; simp at hdis
          · have hs1 : sid = sid0 := by rw [hGEs] at hGE; simp at hGE; omega
            have hg1 : g = g0 := by rw [hG2] at hG2b; simp at hG2b; omega
            rw [hs1, hg1] at hlt
            rw [hc, hb, if_pos hlt, if_pos hlt]
            exact ⟨rfl, rfl⟩
        | none =>
          have hc := count_eval_g2None hse hGEs hLEe hG2
          have hb := brs_eval_g2None hse hGEs hLEe hG2
          refine ⟨?_, ?_, fun hgt => absurd hgt hse,
            fun _ hdis => ?_, fun sid y g hle hGE hLE hG2b => ?_⟩
          · rw [hc]
            by_cases hcc : t.data.length - 1 < sid0
            · rw [if_pos hcc]; exact ⟨0, rfl⟩
            · rw [if_neg hcc]; exact ⟨_, rfl⟩
          · rw [hb]
            by_cases hcc : t.data.length - 1 < sid0
            · rw [if_pos hcc]; exact ⟨none, rfl⟩
            · rw [if_neg hcc]; exact ⟨_, rfl⟩
          · rcases hdis with hdis | hdis
            · rw [hGEs] at hdis; simp at hdis
            · rw [hLEe] at hdis; simp at hdis
          · rw [hG2] at hG2b; simp at hG2b

/-- C10 amended witness: the statement applied to the three-record series
with timestamps 10, 20, 30 and the range [15, 25]. -/
theorem c10_count_buffered_never_fail_witness :
    (∃ c, tsThree.getNRecordsByTimestamp 15 25 = .ok c) ∧
    (∃ w, tsThree.bufferedRecordSet 15 25 = .ok w) ∧
    ((15 : Int) > 25 → tsThree.getNRecordsByTimestamp 15 25 = .ok 0 ∧
      tsThree.bufferedRecordSet 15 25 = .ok none) ∧
    ((15 : Int) ≤ 25 →
      (tsThree.recordId_GE 15 = .ok none ∨
        tsThree.recordId_LE 25 = .ok none) →
      tsThree.getNRecordsByTimestamp 15 25 = .ok 0 ∧
        tsThree.bufferedRecordSet 15 25 = .ok none) ∧
    (∀ sid y g, (15 : Int) ≤ 25 → tsThree.recordId_GE 15 = .ok (some sid) →
      tsThree.recordId_LE 25 = .ok (some y) →
      tsThree.recordId_GE (25 + 1) = .ok (some g) → g - 1 < sid →
      tsThree.getNRecordsByTimestamp 15 25 = .ok 0 ∧
        tsThree.bufferedRecordSet 15 25 = .ok none) := by
  have hinv : Inv tsThree := by
    refine ⟨?_, ?_⟩
    · show List.Pairwise tsLE [⟨10, ()⟩, ⟨20, ()⟩, ⟨30, ()⟩]
      norm_num [List.pairwise_cons, tsLE]
    · show IdxInv tsThree.data none
      trivial
  exact c10_count_buffered_never_fail hinv (by decide) (by decide) 15 25

end Tsdb
